import Mathlib

/-!
Shallow embedding of the retrieval service (`retrieval/app/main.py`) of the
rag-diplom repository: the per-collection vector index (`/index`) and
similarity search (`/search`) endpoints, together with the query-text
resolver `get_query_vector_from_text`.

Modelling conventions:
* Python floats are modelled by exact rationals (`ℚ`).  The float square
  root used by `faiss.normalize_L2` is an explicit parameter
  `sqrtQ : ℚ → ℚ`; theorems that depend on genuine normalization assume
  unit norms for the concrete vectors involved.
* The on-disk state is a `Store`: an association of file names to FAISS
  index contents and to metadata JSON lists.  `index_path`/`meta_path`
  mirror the deterministic file naming of the source.
* `faiss.IndexFlatIP` is a third-party dependency; `faissSearch` models its
  documented exact search semantics: inner products against all stored
  vectors, results by decreasing score, ties by insertion id, at most `k`
  results (the `-1` padding rows are represented by absence).
* The outbound HTTP call of the query resolver is a parameter
  `post : EmbedCallReq → UpstreamResp`; each operation additionally
  returns the list of upstream requests it issued, so "exactly one
  attempt" and "collaborator never invoked" are expressible.
* Exceptions (`ApiError`) become an `Except ApiErr` result; mutating
  endpoints return the resulting `Store` as well, with every error path
  returning the store unchanged, matching Python exceptions aborting
  before any file write.  The process-wide lock is modelled by the
  operations being atomic functions on the store.
-/

deriving instance DecidableEq for Except

namespace RagRetrieval

/-- Value of an open (string-keyed) Python dict or of an error-details
entry: the source only ever stores strings and ints there. -/
inductive PyVal where
  | s (v : String)
  | i (v : Int)
deriving DecidableEq, Repr

/-- Open string-keyed map, as carried by chunk metadata and error details. -/
abbrev PyDict := List (String × PyVal)

/-- Mirrors the `ApiError` exception class: code, message, HTTP status and
details dict. -/
structure ApiErr where
  code : String
  message : String
  status_code : Nat
  details : PyDict
deriving DecidableEq, Repr

/-- Mirrors the `EmbeddingIn` pydantic model. -/
structure EmbeddingIn where
  chunk_id : String
  vector : List ℚ
  dim : Int
deriving DecidableEq, Repr

instance : Inhabited EmbeddingIn := ⟨⟨"", [], 0⟩⟩

/-- Mirrors the `ChunkMeta` pydantic model. -/
structure ChunkMeta where
  chunk_id : String
  document_id : String
  index : Int
  text : String
  metadata : PyDict
deriving DecidableEq, Repr

/-- Mirrors the `IndexRequest` pydantic model. -/
structure IndexRequest where
  source_id : String
  embeddings : List EmbeddingIn
  chunks : List ChunkMeta
deriving DecidableEq, Repr

/-- Mirrors the `IndexResponse` pydantic model. -/
structure IndexResponse where
  source_id : String
  indexed : Nat
deriving DecidableEq, Repr

/-- Mirrors the `SearchRequest` pydantic model (`top_k` defaults to 5 at the
transport layer; here it is just a field). -/
structure SearchRequest where
  source_id : String
  query_vector : Option (List ℚ)
  query_text : Option String
  top_k : Int
deriving DecidableEq, Repr

/-- Mirrors the `SearchResult` pydantic model. -/
structure SearchResult where
  chunk_id : String
  text : String
  metadata : PyDict
  score : ℚ
deriving DecidableEq, Repr

/-- Mirrors the `SearchResponse` pydantic model. -/
structure SearchResponse where
  results : List SearchResult
deriving DecidableEq, Repr

/-- Entry of the persisted metadata JSON list.  `ChunkMeta.model_dump()`
produces all five keys; the stub record synthesized for an unmatched
embedding only has `chunk_id`, `text` and `metadata`.  Absent keys are
`none`, matching `dict.get` with a default in `search`. -/
structure MetaItem where
  chunk_id : Option String
  document_id : Option String
  index : Option Int
  text : Option String
  metadata : Option PyDict
deriving DecidableEq, Repr

/-- Rendering of `chunk.model_dump()`: every field of the chunk present. -/
def modelDump (c : ChunkMeta) : MetaItem :=
  ⟨some c.chunk_id, some c.document_id, some c.index, some c.text, some c.metadata⟩

/-- The stub dict `{"chunk_id": ..., "text": "", "metadata": {}}` used when
no supplied chunk matches an embedding's chunk id. -/
def stubItem (cid : String) : MetaItem :=
  ⟨some cid, none, none, some "", some []⟩

/-- Content of one persisted FAISS file: a flat inner-product index with its
dimension `d` and the stored vectors in insertion order. -/
structure VecIndex where
  d : Int
  vecs : List (List ℚ)
deriving DecidableEq, Repr

/-- The data directory: file name to FAISS index content and file name to
metadata JSON content.  A key being absent models the file not existing. -/
structure Store where
  faissFiles : List (String × VecIndex)
  jsonFiles : List (String × List MetaItem)
deriving DecidableEq, Repr

/-- File lookup in an association list (first match; keys are unique because
writes replace in place). -/
def getFile {α : Type} : List (String × α) → String → Option α
  | [], _ => none
  | (k', v) :: rest, k => if k' = k then some v else getFile rest k

/-- File write: replace the entry in place, or append a new one. -/
def setFile {α : Type} : List (String × α) → String → α → List (String × α)
  | [], k, v => [(k, v)]
  | (k', v') :: rest, k, v =>
      if k' = k then (k, v) :: rest else (k', v') :: setFile rest k v

/-- Mirrors `index_path`: deterministic FAISS file name for a source id. -/
def index_path (source_id : String) : String :=
  "index_" ++ source_id ++ ".faiss"

/-- Mirrors `meta_path`: deterministic metadata file name for a source id. -/
def meta_path (source_id : String) : String :=
  "meta_" ++ source_id ++ ".json"

/-- Mirrors `faiss.read_index` combined with the `path.exists()` check:
the persisted index for a path, if the file exists. -/
def read_index (st : Store) (path : String) : Option VecIndex :=
  getFile st.faissFiles path

/-- Mirrors `faiss.write_index`. -/
def write_index (st : Store) (path : String) (ix : VecIndex) : Store :=
  { st with faissFiles := setFile st.faissFiles path ix }

/-- Mirrors `load_meta`: parse the metadata file, or `[]` if absent. -/
def load_meta (st : Store) (source_id : String) : List MetaItem :=
  (getFile st.jsonFiles (meta_path source_id)).getD []

/-- Mirrors `save_meta`. -/
def save_meta (st : Store) (source_id : String) (items : List MetaItem) : Store :=
  { st with jsonFiles := setFile st.jsonFiles (meta_path source_id) items }

/-- Sum of squares of a vector's entries (`fvec_norm_L2sqr`). -/
def sumSq (v : List ℚ) : ℚ :=
  (v.map (fun x => x * x)).sum

/-- Mirrors `faiss.normalize_L2` on one row: divide by the L2 norm when the
squared norm is positive, leave the row unchanged otherwise.  The float
square root is the explicit parameter `sqrtQ`. -/
def normalize_L2 (sqrtQ : ℚ → ℚ) (v : List ℚ) : List ℚ :=
  let nr := sumSq v
  if 0 < nr then v.map (fun x => x / sqrtQ nr) else v

/-- Inner product of two vectors, as computed by the flat IP index. -/
def dotIP (a b : List ℚ) : ℚ :=
  (List.zipWith (fun x y => x * y) a b).sum

/-- Result ordering of the flat index: higher score first, ties by smaller
insertion id. -/
def hitLE (a b : Nat × ℚ) : Prop :=
  b.2 < a.2 ∨ (a.2 = b.2 ∧ a.1 ≤ b.1)

instance : DecidableRel hitLE := fun a b => by
  unfold hitLE; exact inferInstance

instance : IsTotal (Nat × ℚ) hitLE where
  total a b := by
    rcases lt_trichotomy a.2 b.2 with h | h | h
    · exact Or.inr (Or.inl h)
    · rcases Nat.le_total a.1 b.1 with h' | h'
      · exact Or.inl (Or.inr ⟨h, h'⟩)
      · exact Or.inr (Or.inr ⟨h.symm, h'⟩)
    · exact Or.inl (Or.inl h)

instance : IsTrans (Nat × ℚ) hitLE where
  trans a b c hab hbc := by
    rcases hab with h1 | ⟨h1, h1'⟩ <;> rcases hbc with h2 | ⟨h2, h2'⟩
    · exact Or.inl (lt_trans h2 h1)
    · exact Or.inl (h2 ▸ h1)
    · exact Or.inl (h1 ▸ h2)
    · exact Or.inr ⟨h1.trans h2, h1'.trans h2'⟩

/-- Scores of the query against every stored vector, tagged with insertion
ids. -/
def scoreHits (vecs : List (List ℚ)) (q : List ℚ) : List (Nat × ℚ) :=
  vecs.enum.map (fun p => (p.1, dotIP q p.2))

/-- Models `faiss.IndexFlatIP.search` (third-party dependency): exact
inner-product search over all stored vectors; neighbors in decreasing score
order with ties by insertion id; at most `k` results, the `-1` padding rows
of an underfull result being represented by absence. -/
def faissSearch (ix : VecIndex) (q : List ℚ) (k : Nat) : List (Nat × ℚ) :=
  (List.insertionSort hitLE (scoreHits ix.vecs q)).take k

/-- Error raised for an empty embeddings list. -/
def emptyEmbeddingsErr : ApiErr :=
  ⟨"EMPTY_EMBEDDINGS", "No embeddings provided", 400, []⟩

/-- Error raised for a non-positive declared dimension. -/
def invalidDimErr : ApiErr :=
  ⟨"INVALID_DIM", "Embedding dim must be positive", 400, []⟩

/-- Error raised when an embedding declares a different dimension. -/
def mixedDimErr : ApiErr :=
  ⟨"MIXED_DIM", "All embeddings must share the same dimension", 400, []⟩

/-- Error raised when a vector's length disagrees with the declared
dimension; carries the offending chunk id. -/
def dimensionMismatchErr (cid : String) : ApiErr :=
  ⟨"DIMENSION_MISMATCH", "Vector length does not match embedding dim", 400,
    [("chunk_id", PyVal.s cid)]⟩

/-- Error raised on a dimension conflict with the persisted index. -/
def indexDimMismatchErr (existing incoming : Int) : ApiErr :=
  ⟨"INDEX_DIMENSION_MISMATCH",
    "Existing FAISS index dimension does not match incoming vectors", 409,
    [("existing_dim", PyVal.i existing), ("incoming_dim", PyVal.i incoming)]⟩

/-- Error raised for a non-positive `top_k`. -/
def invalidTopKErr : ApiErr :=
  ⟨"INVALID_TOP_K", "top_k must be greater than zero", 400, []⟩

/-- Error raised when neither a query vector nor query text is usable. -/
def missingQueryErr : ApiErr :=
  ⟨"MISSING_QUERY", "Provide query_vector or query_text", 400, []⟩

/-- Error raised when the query vector's length disagrees with the index
dimension; carries both dimensions. -/
def queryDimMismatchErr (indexDim queryDim : Int) : ApiErr :=
  ⟨"QUERY_DIMENSION_MISMATCH", "Query vector dimension does not match index",
    400, [("index_dim", PyVal.i indexDim), ("query_dim", PyVal.i queryDim)]⟩

/-- Error raised when the embedding collaborator answers with status ≥ 400;
carries the upstream status and the body truncated to 500 characters. -/
def embeddingCallFailedErr (status : Nat) (body : String) : ApiErr :=
  ⟨"EMBEDDING_CALL_FAILED", "Failed to build query embedding", 502,
    [("status_code", PyVal.i status), ("body", PyVal.s (body.take 500))]⟩

/-- Error raised when the embedding collaborator returns zero embeddings. -/
def emptyQueryVectorErr : ApiErr :=
  ⟨"EMPTY_QUERY_VECTOR", "Embedding provider returned no vectors", 502, []⟩

/-- Declared dimension of the first embedding of the request
(`payload.embeddings[0].dim`; only evaluated on a non-empty list). -/
def headDim (p : IndexRequest) : Int :=
  (p.embeddings.headD default).dim

/-- Mirrors the validation loop of `index_chunks`: walk the embeddings in
order; the first one whose declared dim differs from `dim` raises
`MIXED_DIM`, otherwise the first one whose vector length differs from `dim`
raises `DIMENSION_MISMATCH` naming the offending chunk. -/
def validateEmbeddings (dim : Int) : List EmbeddingIn → Option ApiErr
  | [] => none
  | item :: rest =>
      if item.dim ≠ dim then some mixedDimErr
      else if (item.vector.length : Int) ≠ dim then
        some (dimensionMismatchErr item.chunk_id)
      else validateEmbeddings dim rest

/-- Mirrors the dict comprehension
`{chunk.chunk_id: chunk.model_dump() for chunk in payload.chunks}`:
later duplicates overwrite earlier ones. -/
def buildChunkMap (chunks : List ChunkMeta) : String → Option MetaItem :=
  chunks.foldl
    (fun m c => fun k => if k = c.chunk_id then some (modelDump c) else m k)
    (fun _ => none)

/-- The normalized vector rows appended to the FAISS index, in request
order. -/
def newVectors (sqrtQ : ℚ → ℚ) (p : IndexRequest) : List (List ℚ) :=
  p.embeddings.map (fun e => normalize_L2 sqrtQ e.vector)

/-- The metadata records appended for the request, in request order: the
supplied chunk matching each embedding's chunk id, or the stub record. -/
def newMetaRecords (p : IndexRequest) : List MetaItem :=
  p.embeddings.map
    (fun e => (buildChunkMap p.chunks e.chunk_id).getD (stubItem e.chunk_id))

/-- The commit section of `index_chunks`, executed under the lock once the
(possibly fresh) index `ix` is at hand: append the normalized vectors,
persist the FAISS file, then load, extend and persist the metadata file. -/
def indexCommit (sqrtQ : ℚ → ℚ) (st : Store) (p : IndexRequest)
    (ix : VecIndex) : Store × Except ApiErr IndexResponse :=
  let st1 := write_index st (index_path p.source_id)
    { ix with vecs := ix.vecs ++ newVectors sqrtQ p }
  let st2 := save_meta st1 p.source_id
    (load_meta st1 p.source_id ++ newMetaRecords p)
  (st2, Except.ok ⟨p.source_id, p.embeddings.length⟩)

/-- Mirrors the `/index` endpoint `index_chunks`.  Error paths return the
store unchanged (the Python exception aborts before any file write). -/
def index_chunks (sqrtQ : ℚ → ℚ) (st : Store) (p : IndexRequest) :
    Store × Except ApiErr IndexResponse :=
  if p.embeddings = [] then (st, Except.error emptyEmbeddingsErr)
  else if headDim p ≤ 0 then (st, Except.error invalidDimErr)
  else
    match validateEmbeddings (headDim p) p.embeddings with
    | some e => (st, Except.error e)
    | none =>
        match read_index st (index_path p.source_id) with
        | some ix =>
            if ix.d ≠ headDim p then
              (st, Except.error (indexDimMismatchErr ix.d (headDim p)))
            else indexCommit sqrtQ st p ix
        | none => indexCommit sqrtQ st p ⟨headDim p, []⟩

/-- One chunk of the outbound embedding request body. -/
structure EmbedChunkOut where
  chunk_id : String
  document_id : String
  index : Int
  text : String
  lang : String
  token_count : Nat
  metadata : PyDict
deriving DecidableEq, Repr

/-- Outbound request to the embedding collaborator: the body's chunk list
and the `X-Request-Id` header. -/
structure EmbedCallReq where
  chunks : List EmbedChunkOut
  request_id : String
deriving DecidableEq, Repr

/-- Upstream response, as consumed by the resolver: HTTP status, raw body
text, and the parsed `embeddings` list (`data.get("embeddings", [])`). -/
structure UpstreamResp where
  status_code : Nat
  text : String
  embeddings : List EmbeddingIn
deriving DecidableEq, Repr

/-- Number of words of Python `str.split()` (split on whitespace runs,
ignoring leading and trailing whitespace). -/
def pySplitCount (s : String) : Nat :=
  ((s.split Char.isWhitespace).filter (fun t => t ≠ "")).length

/-- The single-chunk payload `get_query_vector_from_text` posts to the
embedding collaborator, together with its correlation header. -/
def embedPayload (query_text : String) (request_id : String) : EmbedCallReq :=
  ⟨[⟨"query", "query", 0, query_text, "ru", pySplitCount query_text, []⟩],
    request_id⟩

/-- Mirrors `get_query_vector_from_text`.  The second component is the list
of upstream requests issued (the body performs exactly one `httpx.post`). -/
def get_query_vector_from_text (post : EmbedCallReq → UpstreamResp)
    (query_text : String) (request_id : String) :
    Except ApiErr (List ℚ) × List EmbedCallReq :=
  let payload := embedPayload query_text request_id
  let response := post payload
  (if 400 ≤ response.status_code then
      Except.error (embeddingCallFailedErr response.status_code response.text)
    else
      match response.embeddings with
      | [] => Except.error emptyQueryVectorErr
      | e :: _ => Except.ok e.vector,
    [payload])

/-- The query-resolution block of `search`: use the supplied vector as-is,
otherwise require a truthy (non-`None`, non-empty) `query_text` and delegate
to the resolver. -/
def resolveQuery (post : EmbedCallReq → UpstreamResp) (p : SearchRequest)
    (request_id : String) : Except ApiErr (List ℚ) × List EmbedCallReq :=
  match p.query_vector with
  | some v => (Except.ok v, [])
  | none =>
      match p.query_text with
      | none => (Except.error missingQueryErr, [])
      | some t =>
          if t = "" then (Except.error missingQueryErr, [])
          else get_query_vector_from_text post t request_id

/-- The result-building loop of `search`: positions outside the metadata
list (including the `-1` padding, represented by absence) are skipped;
fields are read with `dict.get` defaults. -/
def buildResults (metadata : List MetaItem) (hits : List (Nat × ℚ)) :
    List SearchResult :=
  hits.filterMap (fun h =>
    (metadata[h.1]?).map (fun item =>
      ⟨item.chunk_id.getD "", item.text.getD "", item.metadata.getD [], h.2⟩))

/-- Mirrors the `/search` endpoint.  The second component is the list of
upstream embedding requests issued. -/
def search (sqrtQ : ℚ → ℚ) (post : EmbedCallReq → UpstreamResp) (st : Store)
    (p : SearchRequest) (request_id : String) :
    Except ApiErr SearchResponse × List EmbedCallReq :=
  if p.top_k ≤ 0 then (Except.error invalidTopKErr, [])
  else
    match read_index st (index_path p.source_id) with
    | none => (Except.ok ⟨[]⟩, [])
    | some ix =>
        match resolveQuery post p request_id with
        | (Except.error e, tr) => (Except.error e, tr)
        | (Except.ok query_vector, tr) =>
            if (query_vector.length : Int) ≠ ix.d then
              (Except.error (queryDimMismatchErr ix.d query_vector.length), tr)
            else
              let metadata := load_meta st p.source_id
              if metadata = [] then (Except.ok ⟨[]⟩, tr)
              else
                let q := normalize_L2 sqrtQ query_vector
                let limit := min p.top_k.toNat metadata.length
                (Except.ok ⟨buildResults metadata (faissSearch ix q limit)⟩, tr)

/-- Stored vectors of a source id's persisted index (empty if absent). -/
def storedVecs (st : Store) (source_id : String) : List (List ℚ) :=
  ((read_index st (index_path source_id)).map VecIndex.vecs).getD []

/-- Stored metadata records of a source id (empty if absent). -/
def storedMeta (st : Store) (source_id : String) : List MetaItem :=
  load_meta st source_id

/-- Square root used by the concrete examples; it is only ever applied to
values on which it is exact. -/
def sqrtEx : ℚ → ℚ := fun x => if x = 4 then 2 else 1

/-- Empty data directory. -/
def exEmptyStore : Store := ⟨[], []⟩

/-- A two-embedding index request: one embedding has a matching supplied
chunk, the other does not. -/
def exIndexReq : IndexRequest :=
  ⟨"src", [⟨"c1", [1, 0], 2⟩, ⟨"c2", [0, 1], 2⟩],
    [⟨"c1", "doc", 0, "hello", []⟩]⟩

/-- The store produced by indexing `exIndexReq` into `exEmptyStore`. -/
def exStoreAfterIndex : Store :=
  ⟨[("index_src.faiss", ⟨2, [[1, 0], [0, 1]]⟩)],
    [("meta_src.json",
      [⟨some "c1", some "doc", some 0, some "hello", some []⟩,
        ⟨some "c2", none, none, some "", some []⟩])]⟩

/-- A one-embedding request of dimension 1 (conflicts with a stored
dimension-2 index). -/
def exIndexReqDim1 : IndexRequest := ⟨"src", [⟨"c3", [1], 1⟩], []⟩

/-- A request with no embeddings at all. -/
def exEmptyReq : IndexRequest := ⟨"src", [], []⟩

/-- A request whose embeddings declare dimensions 2 and 3. -/
def exMixedReq : IndexRequest :=
  ⟨"src", [⟨"a", [1, 0], 2⟩, ⟨"b", [1, 0, 0], 3⟩], []⟩

/-- A healthy embedding collaborator: returns one dimension-2 vector. -/
def exPost : EmbedCallReq → UpstreamResp :=
  fun _ => ⟨200, "ok", [⟨"query", [1, 0], 2⟩]⟩

/-- A failing embedding collaborator: HTTP 500 with body `boom`. -/
def exPostFail : EmbedCallReq → UpstreamResp :=
  fun _ => ⟨500, "boom", []⟩

/-- A collaborator that succeeds but returns zero embeddings. -/
def exPostEmpty : EmbedCallReq → UpstreamResp :=
  fun _ => ⟨200, "ok", []⟩

theorem getFile_setFile_self {α : Type} (fs : List (String × α)) (k : String)
    (v : α) : getFile (setFile fs k v) k = some v := by
  induction fs with
  | nil => simp [getFile, setFile]
  | cons hd tl ih =>
      obtain ⟨k', v'⟩ := hd
      by_cases h : k' = k
      · simp [getFile, setFile, h]
      · simp [getFile, setFile, h, ih]

theorem read_index_save_meta (st : Store) (sid : String) (m : List MetaItem)
    (path : String) : read_index (save_meta st sid m) path = read_index st path := rfl

theorem load_meta_write_index (st : Store) (path : String) (ix : VecIndex)
    (sid : String) : load_meta (write_index st path ix) sid = load_meta st sid := rfl

theorem read_index_write_index_self (st : Store) (path : String)
    (ix : VecIndex) : read_index (write_index st path ix) path = some ix := by
  simp [read_index, write_index, getFile_setFile_self]

theorem load_meta_save_meta_self (st : Store) (sid : String)
    (m : List MetaItem) : load_meta (save_meta st sid m) sid = m := by
  simp [load_meta, save_meta, getFile_setFile_self]

theorem length_newVectors (sqrtQ : ℚ → ℚ) (p : IndexRequest) :
    (newVectors sqrtQ p).length = p.embeddings.length := by
  simp [newVectors]

theorem length_newMetaRecords (p : IndexRequest) :
    (newMetaRecords p).length = p.embeddings.length := by
  simp [newMetaRecords]

/-- Success shape of `index_chunks`: the response is the request's source id
with the batch size, and the final store is the metadata write applied after
the FAISS write on the initial store. -/
theorem index_chunks_ok_shape (sqrtQ : ℚ → ℚ) (st : Store) (p : IndexRequest)
    (st' : Store) (resp : IndexResponse)
    (h : index_chunks sqrtQ st p = (st', Except.ok resp)) :
    resp = ⟨p.source_id, p.embeddings.length⟩ ∧
    ∃ ix : VecIndex,
      (read_index st (index_path p.source_id) = some ix ∨
        (read_index st (index_path p.source_id) = none ∧ ix = ⟨headDim p, []⟩)) ∧
      st' = save_meta
          (write_index st (index_path p.source_id)
            { ix with vecs := ix.vecs ++ newVectors sqrtQ p })
          p.source_id
          (load_meta st p.source_id ++ newMetaRecords p) := by
  unfold index_chunks at h
  split at h
  · simp at h
  · split at h
    · simp at h
    · split at h
      · simp at h
      · rename_i hval
        split at h
        · rename_i ix hread
          split at h
          · simp at h
          · unfold indexCommit at h
            simp only [load_meta_write_index, Prod.mk.injEq,
              Except.ok.injEq] at h
            obtain ⟨h1, h2⟩ := h
            exact ⟨h2.symm, ix, Or.inl hread, h1.symm⟩
        · rename_i hread
          unfold indexCommit at h
          simp only [load_meta_write_index, Prod.mk.injEq,
            Except.ok.injEq] at h
          obtain ⟨h1, h2⟩ := h
          exact ⟨h2.symm, ⟨headDim p, []⟩, Or.inr ⟨hread, rfl⟩, h1.symm⟩

/-- C1: a successful `index(source_id, embeddings, chunks)` call grows the
vector store and the metadata store of that collection by exactly the number
of embeddings, appending entries in request order; the final store is the
metadata write applied after the FAISS write (vector store persisted first);
the returned `indexed` count is the number of embeddings; and if the two
stores were positionally aligned before the call, they are aligned after it.
The lock itself is modelled by the operation being an atomic function on the
store. -/
theorem C1_index_growth_and_alignment (sqrtQ : ℚ → ℚ) (st : Store)
    (p : IndexRequest) (st' : Store) (resp : IndexResponse)
    (h : index_chunks sqrtQ st p = (st', Except.ok resp)) :
    resp.indexed = p.embeddings.length ∧
    storedVecs st' p.source_id =
      storedVecs st p.source_id ++ newVectors sqrtQ p ∧
    storedMeta st' p.source_id =
      storedMeta st p.source_id ++ newMetaRecords p ∧
    (newVectors sqrtQ p).length = p.embeddings.length ∧
    (newMetaRecords p).length = p.embeddings.length ∧
    (∃ ixNew : VecIndex,
      st' = save_meta (write_index st (index_path p.source_id) ixNew)
        p.source_id (storedMeta st p.source_id ++ newMetaRecords p)) ∧
    ((storedVecs st p.source_id).length = (storedMeta st p.source_id).length →
      (storedVecs st' p.source_id).length =
        (storedMeta st' p.source_id).length) := by
  obtain ⟨hresp, ix, hcase, hst⟩ := index_chunks_ok_shape sqrtQ st p st' resp h
  have hvecs' : storedVecs st' p.source_id = ix.vecs ++ newVectors sqrtQ p := by
    rw [hst]
    simp [storedVecs, read_index_save_meta, read_index_write_index_self]
  have hmeta' : storedMeta st' p.source_id =
      storedMeta st p.source_id ++ newMetaRecords p := by
    rw [hst]
    simp [storedMeta, load_meta_save_meta_self]
  have hvecsOld : storedVecs st p.source_id = ix.vecs := by
    rcases hcase with hsome | ⟨hnone, hix⟩
    · simp [storedVecs, hsome]
    · simp [storedVecs, hnone, hix]
  refine ⟨by rw [hresp], by rw [hvecs', hvecsOld], hmeta',
    length_newVectors .., length_newMetaRecords .., ⟨_, hst⟩, ?_⟩
  intro hal
  rw [hvecs', hmeta']
  rw [hvecsOld] at hal
  simp [List.length_append, length_newVectors, length_newMetaRecords, hal]

/-- Concrete instance of C1: indexing two embeddings into a fresh store. -/
theorem C1_witness :
    index_chunks sqrtEx exEmptyStore exIndexReq =
      (exStoreAfterIndex, Except.ok ⟨"src", 2⟩) ∧
    ((⟨"src", 2⟩ : IndexResponse).indexed = exIndexReq.embeddings.length ∧
    storedVecs exStoreAfterIndex "src" =
      storedVecs exEmptyStore "src" ++ newVectors sqrtEx exIndexReq ∧
    storedMeta exStoreAfterIndex "src" =
      storedMeta exEmptyStore "src" ++ newMetaRecords exIndexReq ∧
    (newVectors sqrtEx exIndexReq).length = exIndexReq.embeddings.length ∧
    (newMetaRecords exIndexReq).length = exIndexReq.embeddings.length ∧
    (∃ ixNew : VecIndex,
      exStoreAfterIndex = save_meta (write_index exEmptyStore "index_src.faiss" ixNew)
        "src" (storedMeta exEmptyStore "src" ++ newMetaRecords exIndexReq)) ∧
    ((storedVecs exEmptyStore "src").length =
        (storedMeta exEmptyStore "src").length →
      (storedVecs exStoreAfterIndex "src").length =
        (storedMeta exStoreAfterIndex "src").length)) := by
  have h : index_chunks sqrtEx exEmptyStore exIndexReq =
      (exStoreAfterIndex, Except.ok ⟨"src", 2⟩) := by
    simp [index_chunks, headDim, validateEmbeddings, exEmptyStore, exIndexReq,
      sqrtEx, read_index, getFile, indexCommit, write_index, save_meta,
      load_meta, setFile, index_path, meta_path, newVectors, newMetaRecords,
      normalize_L2, sumSq, buildChunkMap, modelDump, stubItem,
      exStoreAfterIndex]
  exact ⟨h, C1_index_growth_and_alignment sqrtEx exEmptyStore exIndexReq
    exStoreAfterIndex ⟨"src", 2⟩ h⟩

/-- C2: an otherwise valid index call whose batch dimension differs from the
dimension of the already-persisted index for the same source id fails with
`INDEX_DIMENSION_MISMATCH` (HTTP 409, reporting both dimensions) and leaves
the store — in particular the stored vector count — completely unchanged. -/
theorem C2_index_dimension_conflict (sqrtQ : ℚ → ℚ) (st : Store)
    (p : IndexRequest) (ix : VecIndex)
    (hread : read_index st (index_path p.source_id) = some ix)
    (hne : p.embeddings ≠ []) (hpos : 0 < headDim p)
    (hval : validateEmbeddings (headDim p) p.embeddings = none)
    (hconf : ix.d ≠ headDim p) :
    index_chunks sqrtQ st p =
      (st, Except.error (indexDimMismatchErr ix.d (headDim p))) ∧
    (index_chunks sqrtQ st p).1 = st ∧
    storedVecs (index_chunks sqrtQ st p).1 p.source_id =
      storedVecs st p.source_id ∧
    (indexDimMismatchErr ix.d (headDim p)).status_code = 409 := by
  have hnle : ¬ headDim p ≤ 0 := not_le.mpr hpos
  have h1 : index_chunks sqrtQ st p =
      (st, Except.error (indexDimMismatchErr ix.d (headDim p))) := by
    simp [index_chunks, hne, hnle, hval, hread, hconf]
  exact ⟨h1, by rw [h1], by rw [h1], rfl⟩

/-- Concrete instance of C2: a dimension-1 batch against a stored
dimension-2 index. -/
theorem C2_witness :
    read_index exStoreAfterIndex (index_path "src") =
      some ⟨2, [[1, 0], [0, 1]]⟩ ∧
    index_chunks sqrtEx exStoreAfterIndex exIndexReqDim1 =
      (exStoreAfterIndex, Except.error (indexDimMismatchErr 2 1)) := by
  have hread : read_index exStoreAfterIndex (index_path "src") =
      some ⟨2, [[1, 0], [0, 1]]⟩ := by
    simp [read_index, exStoreAfterIndex, getFile, index_path]
  refine ⟨hread, ?_⟩
  exact (C2_index_dimension_conflict sqrtEx exStoreAfterIndex exIndexReqDim1
    ⟨2, [[1, 0], [0, 1]]⟩ hread (by simp [exIndexReqDim1])
    (by simp [headDim, exIndexReqDim1])
    (by simp [validateEmbeddings, headDim, exIndexReqDim1])
    (by simp [headDim, exIndexReqDim1])).1

/-- Walking the validation loop: if some embedding is offending (wrong
declared dimension or wrong vector length), validation reports an error:
`MIXED_DIM`, or `DIMENSION_MISMATCH` naming an embedding whose vector length
is wrong; either way HTTP 400. -/
theorem validateEmbeddings_offender (dim : Int) (l : List EmbeddingIn)
    (it : EmbeddingIn) (hmem : it ∈ l)
    (hoff : it.dim ≠ dim ∨ (it.vector.length : Int) ≠ it.dim) :
    ∃ e : ApiErr, validateEmbeddings dim l = some e ∧ e.status_code = 400 ∧
      (e = mixedDimErr ∨ ∃ it' : EmbeddingIn, it' ∈ l ∧ it'.dim = dim ∧
        (it'.vector.length : Int) ≠ dim ∧ e = dimensionMismatchErr it'.chunk_id) := by
  induction l with
  | nil => cases hmem
  | cons x rest ih =>
      by_cases hx : x.dim ≠ dim
      · exact ⟨mixedDimErr, by simp [validateEmbeddings, hx], rfl, Or.inl rfl⟩
      · push_neg at hx
        by_cases hlen : (x.vector.length : Int) ≠ dim
        · refine ⟨dimensionMismatchErr x.chunk_id, ?_, rfl,
            Or.inr ⟨x, List.mem_cons_self .., hx, hlen, rfl⟩⟩
          simp [validateEmbeddings, hx, hlen]
        · push_neg at hlen
          have hmem' : it ∈ rest := by
            rcases List.mem_cons.mp hmem with h | h
            · subst h
              rcases hoff with h' | h'
              · exact (h' hx).elim
              · exact (h' (hlen.trans hx.symm)).elim
            · exact h
          obtain ⟨e, he, hs, hc⟩ := ih hmem'
          refine ⟨e, ?_, hs, ?_⟩
          · simp [validateEmbeddings, hx, hlen, he]
          · rcases hc with h | ⟨it', hm, h1, h2, h3⟩
            · exact Or.inl h
            · exact Or.inr ⟨it', List.mem_cons_of_mem _ hm, h1, h2, h3⟩

/-- C3: request validation of `index`: an empty embeddings list fails
`EMPTY_EMBEDDINGS`; a non-positive first dimension fails `INVALID_DIM`; a
batch containing an embedding with a deviating declared dimension or a
vector length differing from the declared dimension fails `MIXED_DIM` or
`DIMENSION_MISMATCH` (the latter naming the offending chunk id in the
details); all are HTTP 400 and return the store unchanged.  Validation runs
before the lock/storage section, which in this model is the commit suffix of
`index_chunks`. -/
theorem C3_index_validation (sqrtQ : ℚ → ℚ) (st : Store) (p : IndexRequest) :
    (p.embeddings = [] →
      index_chunks sqrtQ st p = (st, Except.error emptyEmbeddingsErr)) ∧
    (p.embeddings ≠ [] → headDim p ≤ 0 →
      index_chunks sqrtQ st p = (st, Except.error invalidDimErr)) ∧
    (∀ e : ApiErr, p.embeddings ≠ [] → ¬ headDim p ≤ 0 →
      validateEmbeddings (headDim p) p.embeddings = some e →
      index_chunks sqrtQ st p = (st, Except.error e)) ∧
    (∀ it : EmbeddingIn, it ∈ p.embeddings →
      (it.dim ≠ headDim p ∨ (it.vector.length : Int) ≠ it.dim) →
      ∃ e : ApiErr, validateEmbeddings (headDim p) p.embeddings = some e ∧
        e.status_code = 400 ∧
        (e = mixedDimErr ∨ ∃ it' : EmbeddingIn, it' ∈ p.embeddings ∧
          it'.dim = headDim p ∧ (it'.vector.length : Int) ≠ headDim p ∧
          e = dimensionMismatchErr it'.chunk_id)) ∧
    emptyEmbeddingsErr.status_code = 400 ∧
    invalidDimErr.status_code = 400 := by
  refine ⟨?_, ?_, ?_, ?_, rfl, rfl⟩
  · intro h
    simp [index_chunks, h]
  · intro h1 h2
    simp [index_chunks, h1, h2]
  · intro e h1 h2 h3
    simp [index_chunks, h1, h2, h3]
  · intro it hmem hoff
    exact validateEmbeddings_offender (headDim p) p.embeddings it hmem hoff

/-- Concrete instances of C3: an empty embeddings list, and the spec's
mixed-dimension example (`dim=2` and `dim=3` in one batch). -/
theorem C3_witness :
    index_chunks sqrtEx exEmptyStore exEmptyReq =
      (exEmptyStore, Except.error emptyEmbeddingsErr) ∧
    index_chunks sqrtEx exEmptyStore exMixedReq =
      (exEmptyStore, Except.error mixedDimErr) := by
  refine ⟨(C3_index_validation sqrtEx exEmptyStore exEmptyReq).1 rfl, ?_⟩
  exact (C3_index_validation sqrtEx exEmptyStore exMixedReq).2.2.1 mixedDimErr
    (by simp [exMixedReq]) (by simp [headDim, exMixedReq])
    (by simp [validateEmbeddings, headDim, exMixedReq])

theorem buildChunkMap_aux (cs : List ChunkMeta) (m : String → Option MetaItem)
    (k : String) :
    cs.foldl
        (fun m' c => fun k' =>
          if k' = c.chunk_id then some (modelDump c) else m' k') m k =
      (cs.reverse.find? (fun c => c.chunk_id == k)).elim (m k)
        (fun c => some (modelDump c)) := by
  induction cs generalizing m with
  | nil => simp
  | cons c cs ih =>
      simp only [List.foldl_cons, List.reverse_cons, List.find?_append]
      rw [ih]
      cases hfind : cs.reverse.find? (fun c' => c'.chunk_id == k) with
      | some c1 => simp [Option.or]
      | none =>
          by_cases hk : c.chunk_id = k
          · simp [Option.or, List.find?, hk]
          · have hk' : ¬ k = c.chunk_id := fun h => hk h.symm
            have hb : (c.chunk_id == k) = false := by simp [hk]
            simp [Option.or, List.find?, hb, hk']

/-- The dict comprehension keeps, for each chunk id, the LAST supplied chunk
bearing it. -/
theorem buildChunkMap_eq_find (chunks : List ChunkMeta) (k : String) :
    buildChunkMap chunks k =
      (chunks.reverse.find? (fun c => c.chunk_id == k)).map modelDump := by
  unfold buildChunkMap
  rw [buildChunkMap_aux]
  cases chunks.reverse.find? (fun c => c.chunk_id == k) <;> simp

/-- The `Except` side of `index_chunks` is independent of the supplied
chunks list: an embedding without a matching chunk is never an error, and
extra chunks cause none either. -/
theorem index_chunks_snd_chunks_irrel (sqrtQ : ℚ → ℚ) (st : Store)
    (p : IndexRequest) (c' : List ChunkMeta) :
    (index_chunks sqrtQ st { p with chunks := c' }).2 =
      (index_chunks sqrtQ st p).2 := by
  have hemb : ({ p with chunks := c' } : IndexRequest).embeddings =
      p.embeddings := rfl
  have hsid : ({ p with chunks := c' } : IndexRequest).source_id =
      p.source_id := rfl
  have hhd : headDim { p with chunks := c' } = headDim p := rfl
  by_cases h1 : p.embeddings = []
  · simp [index_chunks, hemb, h1]
  · by_cases h2 : headDim p ≤ 0
    · simp [index_chunks, hemb, hhd, h1, h2]
    · cases h3 : validateEmbeddings (headDim p) p.embeddings with
      | some e => simp [index_chunks, hemb, hsid, hhd, h1, h2, h3]
      | none =>
          cases h4 : read_index st (index_path p.source_id) with
          | some ix =>
              by_cases h5 : ix.d ≠ headDim p
              · simp [index_chunks, hemb, hsid, hhd, h1, h2, h3, h4, h5]
              · simp [index_chunks, indexCommit, hemb, hsid, hhd,
                  h1, h2, h3, h4, h5]
          | none =>
              simp [index_chunks, indexCommit, hemb, hsid, hhd, h1, h2, h3, h4]

/-- C8: on a successful index call the metadata record appended at position
`i` is derived from embedding `i`: the last supplied chunk whose id equals
that embedding's chunk id, or a stub record (the embedding's chunk id, empty
text, empty metadata) when none matches; an unmatched embedding is never an
error (the call's outcome ignores the chunks list), and only records derived
from embeddings are appended, so supplied chunks matching no embedding are
not stored. -/
theorem C8_metadata_selection (sqrtQ : ℚ → ℚ) (st : Store) (p : IndexRequest)
    (st' : Store) (resp : IndexResponse)
    (h : index_chunks sqrtQ st p = (st', Except.ok resp)) :
    storedMeta st' p.source_id =
      storedMeta st p.source_id ++ newMetaRecords p ∧
    (∀ i : Nat, ∀ e : EmbeddingIn, p.embeddings[i]? = some e →
      (newMetaRecords p)[i]? =
        some (((p.chunks.reverse.find?
            (fun c => c.chunk_id == e.chunk_id)).map modelDump).getD
          (stubItem e.chunk_id))) ∧
    (∀ c' : List ChunkMeta,
      (index_chunks sqrtQ st { p with chunks := c' }).2 = Except.ok resp) := by
  obtain ⟨-, ix, -, hst⟩ := index_chunks_ok_shape sqrtQ st p st' resp h
  refine ⟨?_, ?_, ?_⟩
  · rw [hst]
    simp [storedMeta, load_meta_save_meta_self]
  · intro i e he
    simp [newMetaRecords, he, buildChunkMap_eq_find]
  · intro c'
    rw [index_chunks_snd_chunks_irrel]
    exact congrArg Prod.snd h

/-- Concrete instance of C8: the second embedding of `exIndexReq` has no
matching chunk and gets the stub record. -/
theorem C8_witness :
    index_chunks sqrtEx exEmptyStore exIndexReq =
      (exStoreAfterIndex, Except.ok ⟨"src", 2⟩) ∧
    (newMetaRecords exIndexReq)[1]? = some (stubItem "c2") := by
  have h : index_chunks sqrtEx exEmptyStore exIndexReq =
      (exStoreAfterIndex, Except.ok ⟨"src", 2⟩) := by
    simp [index_chunks, headDim, validateEmbeddings, exEmptyStore, exIndexReq,
      sqrtEx, read_index, getFile, indexCommit, write_index, save_meta,
      load_meta, setFile, index_path, meta_path, newVectors, newMetaRecords,
      normalize_L2, sumSq, buildChunkMap, modelDump, stubItem,
      exStoreAfterIndex]
  refine ⟨h, ?_⟩
  have h2 := (C8_metadata_selection sqrtEx exEmptyStore exIndexReq
    exStoreAfterIndex ⟨"src", 2⟩ h).2.1 1 ⟨"c2", [0, 1], 2⟩
    (by simp [exIndexReq])
  simpa [exIndexReq] using h2

/-- C5: a search with positive `top_k` on a source id with no persisted
index file returns a successful empty result list, whatever the query
vector and query text fields contain, and without contacting the embedding
collaborator. -/
theorem C5_absent_collection_empty (sqrtQ : ℚ → ℚ)
    (post : EmbedCallReq → UpstreamResp) (st : Store) (p : SearchRequest)
    (rid : String) (hk : 0 < p.top_k)
    (habs : read_index st (index_path p.source_id) = none) :
    search sqrtQ post st p rid = (Except.ok ⟨[]⟩, []) := by
  have hnle : ¬ p.top_k ≤ 0 := not_le.mpr hk
  simp [search, hnle, habs]

/-- Concrete instance of C5: searching a never-indexed source id. -/
theorem C5_witness :
    (0 : Int) < 5 ∧
    search sqrtEx exPost exEmptyStore ⟨"nosuch", none, some "question", 5⟩
      "rid" = (Except.ok ⟨[]⟩, []) :=
  ⟨by decide, C5_absent_collection_empty sqrtEx exPost exEmptyStore
    ⟨"nosuch", none, some "question", 5⟩ "rid" (by decide) rfl⟩

theorem length_buildResults_le (metadata : List MetaItem)
    (hits : List (Nat × ℚ)) :
    (buildResults metadata hits).length ≤ hits.length :=
  List.length_filterMap_le _ _

theorem length_faissSearch_le (ix : VecIndex) (q : List ℚ) (k : Nat) :
    (faissSearch ix q k).length ≤ k :=
  List.length_take_le _ _

/-- C6: `top_k ≤ 0` fails with `INVALID_TOP_K` (HTTP 400); any successful
search returns at most `min top_k (metadata length)` results, and in
particular an empty metadata store yields an empty result list. -/
theorem C6_top_k_clamp (sqrtQ : ℚ → ℚ) (post : EmbedCallReq → UpstreamResp)
    (st : Store) (p : SearchRequest) (rid : String) :
    (p.top_k ≤ 0 →
      search sqrtQ post st p rid = (Except.error invalidTopKErr, []) ∧
      invalidTopKErr.status_code = 400) ∧
    (∀ resp : SearchResponse, ∀ tr : List EmbedCallReq,
      search sqrtQ post st p rid = (Except.ok resp, tr) →
      resp.results.length ≤
        min p.top_k.toNat (load_meta st p.source_id).length ∧
      (load_meta st p.source_id = [] → resp.results = [])) := by
  constructor
  · intro h
    exact ⟨by simp [search, h], rfl⟩
  · intro resp tr h
    by_cases h0 : p.top_k ≤ 0
    · simp [search, h0] at h
    · cases hread : read_index st (index_path p.source_id) with
      | none =>
          simp [search, h0, hread] at h
          obtain ⟨hresp, -⟩ := h
          subst hresp
          exact ⟨Nat.zero_le _, fun _ => rfl⟩
      | some ix =>
          rcases hres : resolveQuery post p rid with ⟨r, tr'⟩
          cases r with
          | error e => simp [search, h0, hread, hres] at h
          | ok qv =>
              by_cases hdim : (qv.length : Int) ≠ ix.d
              · simp [search, h0, hread, hres, hdim] at h
              · by_cases hmeta : load_meta st p.source_id = []
                · simp [search, h0, hread, hres, hdim, hmeta] at h
                  obtain ⟨hresp, -⟩ := h
                  subst hresp
                  exact ⟨Nat.zero_le _, fun _ => rfl⟩
                · simp [search, h0, hread, hres, hdim, hmeta] at h
                  obtain ⟨hresp, -⟩ := h
                  subst hresp
                  refine ⟨?_, fun hc => absurd hc hmeta⟩
                  exact le_trans (length_buildResults_le _ _)
                    (length_faissSearch_le _ _ _)

/-- Concrete instance of C6: `top_k = 0` is rejected. -/
theorem C6_witness :
    search sqrtEx exPost exEmptyStore ⟨"src", none, none, 0⟩ "rid" =
      (Except.error invalidTopKErr, []) :=
  ((C6_top_k_clamp sqrtEx exPost exEmptyStore ⟨"src", none, none, 0⟩
    "rid").1 (by decide)).1

/-- C7: on an existing collection, a resolved query vector whose length
differs from the stored index dimension fails with
`QUERY_DIMENSION_MISMATCH`, HTTP 400, whose details report both the index
dimension and the query dimension; no results are returned. -/
theorem C7_query_dimension_mismatch (sqrtQ : ℚ → ℚ)
    (post : EmbedCallReq → UpstreamResp) (st : Store) (p : SearchRequest)
    (rid : String) (ix : VecIndex) (qv : List ℚ) (tr : List EmbedCallReq)
    (hk : 0 < p.top_k)
    (hread : read_index st (index_path p.source_id) = some ix)
    (hres : resolveQuery post p rid = (Except.ok qv, tr))
    (hlen : (qv.length : Int) ≠ ix.d) :
    search sqrtQ post st p rid =
      (Except.error (queryDimMismatchErr ix.d qv.length), tr) ∧
    (queryDimMismatchErr ix.d qv.length).status_code = 400 ∧
    (queryDimMismatchErr ix.d qv.length).details =
      [("index_dim", PyVal.i ix.d), ("query_dim", PyVal.i qv.length)] := by
  have hnle : ¬ p.top_k ≤ 0 := not_le.mpr hk
  exact ⟨by simp [search, hnle, hread, hres, hlen], rfl, rfl⟩

/-- Concrete instance of C7: a length-1 query against a dimension-2
collection. -/
theorem C7_witness :
    search sqrtEx exPost exStoreAfterIndex ⟨"src", some [1], none, 5⟩ "rid" =
      (Except.error (queryDimMismatchErr 2 1), []) := by
  have hread : read_index exStoreAfterIndex (index_path "src") =
      some ⟨2, [[1, 0], [0, 1]]⟩ := by
    simp [read_index, exStoreAfterIndex, getFile, index_path]
  exact (C7_query_dimension_mismatch sqrtEx exPost exStoreAfterIndex
    ⟨"src", some [1], none, 5⟩ "rid" ⟨2, [[1, 0], [0, 1]]⟩ [1] []
    (by decide) hread rfl (by decide)).1

/-- C9: text-based query resolution posts exactly one request to the
embedding collaborator; an upstream status ≥ 400 fails
`EMBEDDING_CALL_FAILED` (HTTP 502) with the upstream status and the body
truncated to 500 characters in the details; an upstream success with zero
embeddings fails `EMPTY_QUERY_VECTOR` (HTTP 502); otherwise the first
returned embedding's vector is the result. -/
theorem C9_text_resolution_upstream (post : EmbedCallReq → UpstreamResp)
    (qt rid : String) :
    (get_query_vector_from_text post qt rid).2 = [embedPayload qt rid] ∧
    (400 ≤ (post (embedPayload qt rid)).status_code →
      (get_query_vector_from_text post qt rid).1 = Except.error
        ⟨"EMBEDDING_CALL_FAILED", "Failed to build query embedding", 502,
          [("status_code", PyVal.i (post (embedPayload qt rid)).status_code),
            ("body",
              PyVal.s ((post (embedPayload qt rid)).text.take 500))]⟩) ∧
    ((post (embedPayload qt rid)).status_code < 400 →
      (post (embedPayload qt rid)).embeddings = [] →
      (get_query_vector_from_text post qt rid).1 =
        Except.error emptyQueryVectorErr ∧
      emptyQueryVectorErr.status_code = 502) ∧
    (∀ e : EmbeddingIn, ∀ rest : List EmbeddingIn,
      (post (embedPayload qt rid)).status_code < 400 →
      (post (embedPayload qt rid)).embeddings = e :: rest →
      (get_query_vector_from_text post qt rid).1 = Except.ok e.vector) := by
  refine ⟨rfl, ?_, ?_, ?_⟩
  · intro h
    simp [get_query_vector_from_text, embeddingCallFailedErr, h]
  · intro h1 h2
    exact ⟨by simp [get_query_vector_from_text, not_le.mpr h1, h2], rfl⟩
  · intro e rest h1 h2
    simp [get_query_vector_from_text, not_le.mpr h1, h2]

/-- Concrete instance of C9: an upstream 500 with body `boom`. -/
theorem C9_witness :
    400 ≤ (exPostFail (embedPayload "hello" "rid")).status_code ∧
    (get_query_vector_from_text exPostFail "hello" "rid").2 =
      [embedPayload "hello" "rid"] ∧
    (get_query_vector_from_text exPostFail "hello" "rid").1 = Except.error
      ⟨"EMBEDDING_CALL_FAILED", "Failed to build query embedding", 502,
        [("status_code",
            PyVal.i (exPostFail (embedPayload "hello" "rid")).status_code),
          ("body",
            PyVal.s ((exPostFail (embedPayload "hello" "rid")).text.take 500))]⟩ := by
  have h : 400 ≤ (exPostFail (embedPayload "hello" "rid")).status_code := by
    decide
  exact ⟨h, (C9_text_resolution_upstream exPostFail "hello" "rid").1,
    (C9_text_resolution_upstream exPostFail "hello" "rid").2.1 h⟩

/-- C10: a supplied query vector is used as-is and the embedding
collaborator is never invoked (the upstream trace is empty), even when query
text is also present; with no query vector, a missing or empty-string query
text on an existing collection fails `MISSING_QUERY` (HTTP 400) without
contacting the collaborator. -/
theorem C10_query_vector_precedence (sqrtQ : ℚ → ℚ)
    (post : EmbedCallReq → UpstreamResp) (st : Store) (p : SearchRequest)
    (rid : String) :
    (∀ v : List ℚ, p.query_vector = some v →
      resolveQuery post p rid = (Except.ok v, []) ∧
      (search sqrtQ post st p rid).2 = []) ∧
    (∀ ix : VecIndex, 0 < p.top_k →
      read_index st (index_path p.source_id) = some ix →
      p.query_vector = none →
      (p.query_text = none ∨ p.query_text = some "") →
      search sqrtQ post st p rid = (Except.error missingQueryErr, []) ∧
      missingQueryErr.status_code = 400) := by
  constructor
  · intro v hv
    have hres : resolveQuery post p rid = (Except.ok v, []) := by
      simp [resolveQuery, hv]
    refine ⟨hres, ?_⟩
    by_cases h0 : p.top_k ≤ 0
    · simp [search, h0]
    · cases hread : read_index st (index_path p.source_id) with
      | none => simp [search, h0, hread]
      | some ix =>
          by_cases hdim : (v.length : Int) ≠ ix.d
          · simp [search, h0, hread, hres, hdim]
          · by_cases hmeta : load_meta st p.source_id = []
            · simp [search, h0, hread, hres, hdim, hmeta]
            · simp [search, h0, hread, hres, hdim, hmeta]
  · intro ix hk hnone hvec htext
    have hres : resolveQuery post p rid =
        (Except.error missingQueryErr, []) := by
      rcases htext with h | h <;> simp [resolveQuery, hvec, h]
    exact ⟨by simp [search, not_le.mpr hk, hnone, hres], rfl⟩

/-- Concrete instances of C10: a supplied vector with query text also
present, and an empty-string query text with no vector. -/
theorem C10_witness :
    (resolveQuery exPost ⟨"src", some [1, 0], some "txt", 5⟩ "rid" =
        (Except.ok [1, 0], []) ∧
      (search sqrtEx exPost exStoreAfterIndex
        ⟨"src", some [1, 0], some "txt", 5⟩ "rid").2 = []) ∧
    search sqrtEx exPost exStoreAfterIndex ⟨"src", none, some "", 5⟩ "rid" =
      (Except.error missingQueryErr, []) := by
  have hread : read_index exStoreAfterIndex (index_path "src") =
      some ⟨2, [[1, 0], [0, 1]]⟩ := by
    simp [read_index, exStoreAfterIndex, getFile, index_path]
  refine ⟨(C10_query_vector_precedence sqrtEx exPost exStoreAfterIndex
    ⟨"src", some [1, 0], some "txt", 5⟩ "rid").1 [1, 0] rfl, ?_⟩
  exact ((C10_query_vector_precedence sqrtEx exPost exStoreAfterIndex
    ⟨"src", none, some "", 5⟩ "rid").2 ⟨2, [[1, 0], [0, 1]]⟩ (by decide)
    hread rfl (Or.inr rfl)).1

theorem sumSq_eq_sum_range (a : List ℚ) :
    sumSq a = ∑ i ∈ Finset.range a.length, a.getD i 0 ^ 2 := by
  induction a with
  | nil => simp [sumSq]
  | cons x l ih =>
      have h1 : sumSq (x :: l) = x * x + sumSq l := by simp [sumSq]
      rw [h1, ih, List.length_cons, Finset.sum_range_succ']
      simp only [List.getD_cons_succ, List.getD_cons_zero]
      ring

theorem sumSq_eq_sum_range_of_le (a : List ℚ) (N : Nat) (h : a.length ≤ N) :
    sumSq a = ∑ i ∈ Finset.range N, a.getD i 0 ^ 2 := by
  rw [sumSq_eq_sum_range]
  refine Finset.sum_subset (Finset.range_subset.mpr h) ?_
  intro i _ hi
  have hlen : a.length ≤ i := le_of_not_lt (by simpa using hi)
  rw [List.getD_eq_default a 0 hlen]
  simp

theorem dotIP_eq_sum_range (a b : List ℚ) :
    dotIP a b =
      ∑ i ∈ Finset.range (max a.length b.length), a.getD i 0 * b.getD i 0 := by
  induction a generalizing b with
  | nil =>
      have h0 : dotIP [] b = 0 := by simp [dotIP]
      rw [h0]
      exact (Finset.sum_eq_zero (fun i _ => by simp)).symm
  | cons x xs ih =>
      cases b with
      | nil =>
          have h0 : dotIP (x :: xs) [] = 0 := by simp [dotIP]
          rw [h0]
          exact (Finset.sum_eq_zero (fun i _ => by simp)).symm
      | cons y ys =>
          have h1 : dotIP (x :: xs) (y :: ys) = x * y + dotIP xs ys := by
            simp [dotIP]
          rw [h1, ih, List.length_cons, List.length_cons, Nat.succ_max_succ,
            Finset.sum_range_succ']
          simp only [List.getD_cons_succ, List.getD_cons_zero]
          ring

/-- Cauchy–Schwarz for the list inner product. -/
theorem dotIP_sq_le (a b : List ℚ) : dotIP a b ^ 2 ≤ sumSq a * sumSq b := by
  rw [dotIP_eq_sum_range,
    sumSq_eq_sum_range_of_le a (max a.length b.length) (le_max_left ..),
    sumSq_eq_sum_range_of_le b (max a.length b.length) (le_max_right ..)]
  exact Finset.sum_mul_sq_le_sq_mul_sq _ _ _

theorem bounds_of_sq_le_one (d : ℚ) (h : d ^ 2 ≤ 1) : -1 ≤ d ∧ d ≤ 1 := by
  constructor <;> nlinarith [sq_nonneg (d + 1), sq_nonneg (d - 1)]

theorem mem_scoreHits (vecs : List (List ℚ)) (q : List ℚ) (i : Nat) (s : ℚ) :
    (i, s) ∈ scoreHits vecs q ↔ ∃ v, vecs[i]? = some v ∧ s = dotIP q v := by
  constructor
  · intro h
    rw [scoreHits, List.mem_map] at h
    obtain ⟨⟨j, v⟩, hmem, heq⟩ := h
    injection heq with hji hs
    subst hji
    exact ⟨v, List.mk_mem_enum_iff_getElem?.mp hmem, hs.symm⟩
  · rintro ⟨v, hv, hs⟩
    rw [scoreHits, List.mem_map]
    exact ⟨(i, v), List.mk_mem_enum_iff_getElem?.mpr hv, by rw [hs]⟩

/-- The hit list of the modelled FAISS search is strictly ordered: scores
strictly decrease, and equal scores appear in increasing insertion order. -/
theorem faissSearch_pairwise (ix : VecIndex) (q : List ℚ) (k : Nat) :
    List.Pairwise (fun a b : Nat × ℚ => b.2 < a.2 ∨ (a.2 = b.2 ∧ a.1 < b.1))
      (faissSearch ix q k) := by
  have hsorted : List.Pairwise hitLE
      (List.insertionSort hitLE (scoreHits ix.vecs q)) :=
    List.sorted_insertionSort hitLE _
  have hperm : (List.insertionSort hitLE (scoreHits ix.vecs q)).Perm
      (scoreHits ix.vecs q) := List.perm_insertionSort hitLE _
  have h2 : (scoreHits ix.vecs q).map Prod.fst =
      List.range ix.vecs.length := by
    rw [scoreHits, List.map_map]
    exact List.enum_map_fst _
  have h3 : ((scoreHits ix.vecs q).map Prod.fst).Nodup := by
    rw [h2]; exact List.nodup_range _
  have h4 : ((List.insertionSort hitLE (scoreHits ix.vecs q)).map
      Prod.fst).Nodup :=
    h3.perm (hperm.map Prod.fst).symm
  have hne : List.Pairwise (fun a b : Nat × ℚ => a.1 ≠ b.1)
      (List.insertionSort hitLE (scoreHits ix.vecs q)) :=
    List.pairwise_map.mp h4
  have hstrict : List.Pairwise
      (fun a b : Nat × ℚ => b.2 < a.2 ∨ (a.2 = b.2 ∧ a.1 < b.1))
      (List.insertionSort hitLE (scoreHits ix.vecs q)) := by
    refine (hsorted.and hne).imp ?_
    rintro a b ⟨h1 | ⟨heq, hle⟩, hne'⟩
    · exact Or.inl h1
    · exact Or.inr ⟨heq, lt_of_le_of_ne hle hne'⟩
  exact hstrict.sublist (List.take_sublist _ _)

theorem mem_faissSearch (ix : VecIndex) (q : List ℚ) (k : Nat) (h : Nat × ℚ)
    (hm : h ∈ faissSearch ix q k) : h ∈ scoreHits ix.vecs q :=
  (List.perm_insertionSort hitLE _).subset ((List.take_sublist _ _).subset hm)

theorem buildResults_pairwise_of (metadata : List MetaItem)
    (hits : List (Nat × ℚ))
    (hp : List.Pairwise
      (fun a b : Nat × ℚ => b.2 < a.2 ∨ (a.2 = b.2 ∧ a.1 < b.1)) hits) :
    List.Pairwise (fun r1 r2 : SearchResult => r2.score ≤ r1.score)
      (buildResults metadata hits) := by
  rw [buildResults, List.pairwise_filterMap]
  refine hp.imp ?_
  rintro a b hab x hx y hy
  rw [Option.mem_def, Option.map_eq_some'] at hx hy
  obtain ⟨ia, -, hxa⟩ := hx
  obtain ⟨ib, -, hyb⟩ := hy
  have hxs : x.score = a.2 := by rw [← hxa]
  have hys : y.score = b.2 := by rw [← hyb]
  rw [hxs, hys]
  rcases hab with h | ⟨h, -⟩
  · exact le_of_lt h
  · exact le_of_eq h.symm

/-- C4: on a successful search over a non-empty collection, the result list
is built from the hit list of the exact inner-product search; that hit list
is ordered by strictly descending score with score ties in increasing
insertion order; every hit's score is the inner product of the L2-normalized
query with the stored vector at that insertion position and (under exact
unit norms) lies in `[-1, 1]`; consequently the returned results carry
descending scores. -/
theorem C4_search_ranking (sqrtQ : ℚ → ℚ) (post : EmbedCallReq → UpstreamResp)
    (st : Store) (p : SearchRequest) (rid : String) (ix : VecIndex)
    (qv : List ℚ) (tr : List EmbedCallReq)
    (hk : 0 < p.top_k)
    (hread : read_index st (index_path p.source_id) = some ix)
    (hres : resolveQuery post p rid = (Except.ok qv, tr))
    (hdim : (qv.length : Int) = ix.d)
    (hmeta : load_meta st p.source_id ≠ [])
    (hunit : ∀ v ∈ ix.vecs, sumSq v = 1)
    (hqn : sumSq (normalize_L2 sqrtQ qv) = 1) :
    search sqrtQ post st p rid =
      (Except.ok ⟨buildResults (load_meta st p.source_id)
        (faissSearch ix (normalize_L2 sqrtQ qv)
          (min p.top_k.toNat (load_meta st p.source_id).length))⟩, tr) ∧
    List.Pairwise (fun a b : Nat × ℚ => b.2 < a.2 ∨ (a.2 = b.2 ∧ a.1 < b.1))
      (faissSearch ix (normalize_L2 sqrtQ qv)
        (min p.top_k.toNat (load_meta st p.source_id).length)) ∧
    (∀ i : Nat, ∀ s : ℚ,
      (i, s) ∈ faissSearch ix (normalize_L2 sqrtQ qv)
        (min p.top_k.toNat (load_meta st p.source_id).length) →
      ∃ v : List ℚ, ix.vecs[i]? = some v ∧
        s = dotIP (normalize_L2 sqrtQ qv) v ∧ -1 ≤ s ∧ s ≤ 1) ∧
    List.Pairwise (fun r1 r2 : SearchResult => r2.score ≤ r1.score)
      (buildResults (load_meta st p.source_id)
        (faissSearch ix (normalize_L2 sqrtQ qv)
          (min p.top_k.toNat (load_meta st p.source_id).length))) := by
  have hnle : ¬ p.top_k ≤ 0 := not_le.mpr hk
  have hdim' : ¬ ((qv.length : Int) ≠ ix.d) := by simpa using hdim
  refine ⟨by simp [search, hnle, hread, hres, hdim', hmeta],
    faissSearch_pairwise .., ?_,
    buildResults_pairwise_of _ _ (faissSearch_pairwise ..)⟩
  intro i s hmem
  have hmem' := mem_faissSearch _ _ _ _ hmem
  obtain ⟨v, hv, hs⟩ := (mem_scoreHits ix.vecs (normalize_L2 sqrtQ qv) i s).mp hmem'
  have hvmem : v ∈ ix.vecs := List.getElem?_mem hv
  have hb : s ^ 2 ≤ 1 := by
    have hcs := dotIP_sq_le (normalize_L2 sqrtQ qv) v
    rw [hqn, hunit v hvmem] at hcs
    simpa [hs] using hcs
  obtain ⟨h1, h2⟩ := bounds_of_sq_le_one s hb
  exact ⟨v, hv, hs, h1, h2⟩

/-- Concrete instance of C4: querying the two-vector collection with one of
its own (unit) vectors. -/
theorem C4_witness :
    (∀ v ∈ ([[1, 0], [0, 1]] : List (List ℚ)), sumSq v = 1) ∧
    sumSq (normalize_L2 sqrtEx [1, 0]) = 1 ∧
    (search sqrtEx exPost exStoreAfterIndex ⟨"src", some [1, 0], none, 5⟩
        "rid" =
      (Except.ok ⟨buildResults (load_meta exStoreAfterIndex "src")
        (faissSearch ⟨2, [[1, 0], [0, 1]]⟩ (normalize_L2 sqrtEx [1, 0])
          (min (5 : Int).toNat
            (load_meta exStoreAfterIndex "src").length))⟩, []) ∧
    List.Pairwise (fun a b : Nat × ℚ => b.2 < a.2 ∨ (a.2 = b.2 ∧ a.1 < b.1))
      (faissSearch ⟨2, [[1, 0], [0, 1]]⟩ (normalize_L2 sqrtEx [1, 0])
        (min (5 : Int).toNat (load_meta exStoreAfterIndex "src").length)) ∧
    (∀ i : Nat, ∀ s : ℚ,
      (i, s) ∈ faissSearch ⟨2, [[1, 0], [0, 1]]⟩ (normalize_L2 sqrtEx [1, 0])
        (min (5 : Int).toNat (load_meta exStoreAfterIndex "src").length) →
      ∃ v : List ℚ, ([[1, 0], [0, 1]] : List (List ℚ))[i]? = some v ∧
        s = dotIP (normalize_L2 sqrtEx [1, 0]) v ∧ -1 ≤ s ∧ s ≤ 1) ∧
    List.Pairwise (fun r1 r2 : SearchResult => r2.score ≤ r1.score)
      (buildResults (load_meta exStoreAfterIndex "src")
        (faissSearch ⟨2, [[1, 0], [0, 1]]⟩ (normalize_L2 sqrtEx [1, 0])
          (min (5 : Int).toNat
            (load_meta exStoreAfterIndex "src").length)))) := by
  have hread : read_index exStoreAfterIndex (index_path "src") =
      some ⟨2, [[1, 0], [0, 1]]⟩ := by
    simp [read_index, exStoreAfterIndex, getFile, index_path]
  have hmeta : load_meta exStoreAfterIndex "src" ≠ [] := by
    simp [load_meta, exStoreAfterIndex, getFile, meta_path]
  have hunit : ∀ v ∈ ([[1, 0], [0, 1]] : List (List ℚ)), sumSq v = 1 := by
    intro v hv
    simp at hv
    rcases hv with h | h <;> subst h <;> simp [sumSq]
  have hqn : sumSq (normalize_L2 sqrtEx [1, 0]) = 1 := by
    simp [normalize_L2, sumSq, sqrtEx]
  exact ⟨hunit, hqn, C4_search_ranking sqrtEx exPost exStoreAfterIndex
    ⟨"src", some [1, 0], none, 5⟩ "rid" ⟨2, [[1, 0], [0, 1]]⟩ [1, 0] []
    (by decide) hread rfl (by decide) hmeta hunit hqn⟩

end RagRetrieval
